import Mathlib

set_option maxRecDepth 100000

/-!
Verification of the contract-state codec in
`src/gravity-core-adapter/src/state.rs`: the fixed-width (138-byte) binary
representation of the `GravityContract` record and its pack/unpack functions.

Modelling conventions:
* byte buffers are `List Nat`, each entry a byte value (`< 256` where it
  matters);
* a Rust panic on the encode path (`arrayref` bounds, `copy_from_slice`
  length mismatch) is modelled as `Option.none`;
* machine integers are `Nat` with explicit `% 256 ^ k` where wrap-around
  matters.
-/

/-- Model of `solana_program::pubkey::Pubkey` (`[u8; 32]`) as its byte list.
The length-32 invariant that the Rust array type guarantees appears as the
`GravityContract.WellFormed` hypothesis on theorems. -/
abbrev Pubkey := List Nat

/-- Model of `solana_program::program_error::ProgramError`, restricted to the
only variant this module produces. -/
inductive ProgramError
  | InvalidAccountData
deriving DecidableEq

/-- Model of `u64::from_le_bytes` (and `u8::from_le_bytes` on a 1-byte slice): read an
unsigned integer from a little-endian byte list. -/
def from_le_bytes (l : List Nat) : Nat :=
  l.foldr (fun b acc => b + 256 * acc) 0

/-- Model of `u64::to_le_bytes`, generalised to `k` output bytes: the little-endian
byte list of `n`, least significant byte first. -/
def to_le_bytes : Nat → Nat → List Nat
  | 0, _ => []
  | k + 1, n => n % 256 :: to_le_bytes k (n / 256)

/-- The contract state record (`struct GravityContract` in `state.rs`). -/
structure GravityContract where
  is_initialized : Bool
  initializer_pubkey : Pubkey
  bft : Nat
  consuls : List Pubkey
  last_round : Nat
deriving DecidableEq

/-- The constant `GravityContract::LEN`, the fixed encoded length. -/
def GravityContract.LEN : Nat := 138

/-- Model of `GravityContract::unpack_from_slice`.  The field slices follow
`array_refs![src, 1, 32, 1, 32 * 3, 8]`, and the consuls region is cut at
`[0..32]`, `[32..64]`, `[64..96]`.  Its caller (`Pack::unpack`) guarantees
`src.length = 138`; on a shorter slice the Rust `array_ref!` would panic,
a case the `decode` wrapper below never reaches. -/
def GravityContract.unpack_from_slice (src : List Nat) :
    Except ProgramError GravityContract :=
  let consuls := (src.drop 34).take 96
  (match src.take 1 with
    | [0] => Except.ok false
    | [1] => Except.ok true
    | _ => Except.error ProgramError.InvalidAccountData).map
  fun is_initialized =>
    { is_initialized := is_initialized
      initializer_pubkey := (src.drop 1).take 32
      bft := from_le_bytes ((src.drop 33).take 1)
      consuls := [consuls.take 32, (consuls.drop 32).take 32,
                  (consuls.drop 64).take 32]
      last_round := from_le_bytes ((src.drop 130).take 8) }

/-- Model of `GravityContract::pack_into_slice`.  `none` models a Rust panic:
`array_mut_ref!` on a destination shorter than `LEN`, or `copy_from_slice`
when the source length differs from the destination slice's – for the
initializer key (32 bytes) and for the concatenated consul bytes (96 bytes,
built by the `fold` over `consuls`).  On success the first 138 bytes of
`dst` are replaced and the remainder is kept unchanged. -/
def GravityContract.pack_into_slice (c : GravityContract) (dst : List Nat) :
    Option (List Nat) :=
  if dst.length < GravityContract.LEN then none
  else if c.initializer_pubkey.length ≠ 32 then none
  else
    let consuls_bytes := c.consuls.foldl (fun acc x => acc ++ x) []
    if consuls_bytes.length ≠ 96 then none
    else some ((if c.is_initialized then [1] else [0]) ++ c.initializer_pubkey
      ++ [c.bft] ++ consuls_bytes ++ to_le_bytes 8 c.last_round
      ++ dst.drop GravityContract.LEN)

/-- The operation `encode`: pack into a fresh zeroed buffer of length `LEN`, exactly as the
repository's round-trip test `test_ser_deser_internal` does. -/
def GravityContract.encode (c : GravityContract) : Option (List Nat) :=
  c.pack_into_slice (List.replicate GravityContract.LEN 0)

/-- Modelled from the spec: the decode-path error taxonomy
(`SizeMismatch`, `InvalidInitFlag`).  In the source both conditions surface
as `ProgramError::InvalidAccountData`: the length check lives in
`solana_program`'s `Pack::unpack` default method (not under `src/`) and the
flag check inside `unpack_from_slice`; the spec names the two conditions
separately, which this type records. -/
inductive DecodeError
  | SizeMismatch
  | InvalidInitFlag
deriving DecidableEq

/-- Modelled from the spec:
`decode(byteSlice) -> Result<ContractState, DecodeError>`.  The length guard
is `solana_program`'s `Pack::unpack` wrapper (absent from `src/`), which
rejects any buffer whose length is not `LEN` before `unpack_from_slice`
runs; the only error the latter can then produce is the init-flag check. -/
def decode (buf : List Nat) : Except DecodeError GravityContract :=
  if buf.length = GravityContract.LEN then
    match GravityContract.unpack_from_slice buf with
    | Except.ok c => Except.ok c
    | Except.error _ => Except.error DecodeError.InvalidInitFlag
  else Except.error DecodeError.SizeMismatch

/-- The decode path with the buffer threaded as explicit state: the result is
computed from reads of `buf`, and the buffer as left by the call is returned
alongside, so any write performed by the code would surface in the second
component. -/
def decodeSt (buf : List Nat) :
    Except DecodeError GravityContract × List Nat :=
  if buf.length = GravityContract.LEN then
    match GravityContract.unpack_from_slice buf with
    | Except.ok c => (Except.ok c, buf)
    | Except.error _ => (Except.error DecodeError.InvalidInitFlag, buf)
  else (Except.error DecodeError.SizeMismatch, buf)

/-- Golden-test constants: three distinct nonzero 32-byte patterns and the
state of the spec's field-layout test. -/
def consulA : Pubkey := List.replicate 32 170

def consulB : Pubkey := List.replicate 32 187

def consulC : Pubkey := List.replicate 32 204

def goldenState : GravityContract :=
  { is_initialized := true
    initializer_pubkey := List.replicate 32 0
    bft := 2
    consuls := [consulA, consulB, consulC]
    last_round := 42 }

/-- The byte layout the golden state must encode to. -/
def goldenBuf : List Nat :=
  [1] ++ List.replicate 32 0 ++ [2] ++ consulA ++ consulB ++ consulC
    ++ [42, 0, 0, 0, 0, 0, 0, 0]

/-- A state whose `last_round` exercises the endianness of the encoding. -/
def endianState : GravityContract :=
  { is_initialized := false
    initializer_pubkey := List.replicate 32 0
    bft := 1
    consuls := [List.replicate 32 1, List.replicate 32 2, List.replicate 32 3]
    last_round := 0x0102030405060708 }

/-- The image of the Rust field types: pubkeys are 32 bytes, `bft : u8`,
`last_round : u64`. -/
abbrev GravityContract.WellFormed (c : GravityContract) : Prop :=
  c.initializer_pubkey.length = 32 ∧ (∀ b ∈ c.initializer_pubkey, b < 256) ∧
  c.bft < 256 ∧
  (∀ p ∈ c.consuls, p.length = 32 ∧ ∀ b ∈ p, b < 256) ∧
  c.last_round < 2 ^ 64

section Helpers

theorem length_to_le_bytes (k n : Nat) : (to_le_bytes k n).length = k := by
  induction k generalizing n with
  | zero => rfl
  | succ k ih => simp [to_le_bytes, ih]

theorem from_le_bytes_to_le_bytes (k n : Nat) :
    from_le_bytes (to_le_bytes k n) = n % 256 ^ k := by
  induction k generalizing n with
  | zero => simp [to_le_bytes, from_le_bytes, Nat.mod_one]
  | succ k ih =>
    have hp : (256 : Nat) ^ (k + 1) = 256 * 256 ^ k := by
      rw [pow_succ, Nat.mul_comm]
    simp only [to_le_bytes, from_le_bytes, List.foldr_cons, hp, Nat.mod_mul]
    have := ih (n / 256)
    simp only [from_le_bytes] at this
    omega

theorem from_le_bytes_lt (l : List Nat) (h : ∀ b ∈ l, b < 256) :
    from_le_bytes l < 256 ^ l.length := by
  induction l with
  | nil => simp [from_le_bytes]
  | cons b t ih =>
    have hb : b < 256 := h b (by simp)
    have ht := ih (fun x hx => h x (by simp [hx]))
    simp only [from_le_bytes, List.foldr_cons, List.length_cons, pow_succ] at *
    omega

theorem getD_to_le_bytes (k n i : Nat) (h : i < k) :
    (to_le_bytes k n).getD i 0 = n / 256 ^ i % 256 := by
  induction k generalizing n i with
  | zero => omega
  | succ k ih =>
    cases i with
    | zero => simp [to_le_bytes, List.getD]
    | succ i =>
      have : (256 : Nat) ^ (i + 1) = 256 * 256 ^ i := by
        rw [pow_succ, Nat.mul_comm]
      simp only [to_le_bytes, List.getD_cons_succ, ih (n / 256) i (by omega),
        Nat.div_div_eq_div_mul, this]

theorem getD_drop (l : List Nat) (n i d : Nat) :
    (l.drop n).getD i d = l.getD (n + i) d := by
  rcases Nat.lt_or_ge (n + i) l.length with h | h
  · rw [List.getD_eq_getElem l d h,
      List.getD_eq_getElem _ d (by simp [List.length_drop]; omega)]
    simp [List.getElem_drop]
  · rw [List.getD_eq_default l d h,
      List.getD_eq_default _ d (by simp [List.length_drop]; omega)]

theorem foldl_append_length (ps : List (List Nat)) (acc : List Nat) :
    (ps.foldl (fun a x => a ++ x) acc).length
      = acc.length + (ps.map List.length).sum := by
  induction ps generalizing acc with
  | nil => simp
  | cons p t ih => simp [ih, List.length_append]; omega

theorem consuls_bytes_length (ps : List Pubkey)
    (h : ∀ p ∈ ps, p.length = 32) :
    (ps.foldl (fun a x => a ++ x) []).length = 32 * ps.length := by
  rw [foldl_append_length]
  simp only [List.length_nil, Nat.zero_add]
  induction ps with
  | nil => simp
  | cons p t ih =>
    have hp : p.length = 32 := h p (by simp)
    have := ih (fun q hq => h q (by simp [hq]))
    simp [hp, this, Nat.mul_succ]
    omega

theorem unpack_layout (b0 bf : Nat) (init c0 c1 c2 lr rest : List Nat)
    (hinit : init.length = 32) (h0 : c0.length = 32) (h1 : c1.length = 32)
    (h2 : c2.length = 32) (hlr : lr.length = 8) :
    GravityContract.unpack_from_slice
        ([b0] ++ (init ++ ([bf] ++ (c0 ++ (c1 ++ (c2 ++ (lr ++ rest))))))) =
      (match ([b0] : List Nat) with
        | [0] => Except.ok false
        | [1] => Except.ok true
        | _ => Except.error ProgramError.InvalidAccountData).map
      fun b =>
        { is_initialized := b
          initializer_pubkey := init
          bft := bf
          consuls := [c0, c1, c2]
          last_round := from_le_bytes lr } := by
  have t1 : ([b0] ++ (init ++ ([bf] ++ (c0 ++ (c1 ++ (c2 ++ (lr ++ rest))))))).take 1
      = [b0] := List.take_left' rfl
  have d1 : ([b0] ++ (init ++ ([bf] ++ (c0 ++ (c1 ++ (c2 ++ (lr ++ rest))))))).drop 1
      = init ++ ([bf] ++ (c0 ++ (c1 ++ (c2 ++ (lr ++ rest))))) := List.drop_left' rfl
  have i1 : ((([b0] ++ (init ++ ([bf] ++ (c0 ++ (c1 ++ (c2 ++ (lr ++ rest)))))))).drop 1).take 32
      = init := by
    rw [d1]; exact List.take_left' hinit
  have d33 : ([b0] ++ (init ++ ([bf] ++ (c0 ++ (c1 ++ (c2 ++ (lr ++ rest))))))).drop 33
      = [bf] ++ (c0 ++ (c1 ++ (c2 ++ (lr ++ rest)))) := by
    rw [show (33 : Nat) = 1 + 32 from rfl, ← List.drop_drop, d1]
    exact List.drop_left' hinit
  have bf1 : (([b0] ++ (init ++ ([bf] ++ (c0 ++ (c1 ++ (c2 ++ (lr ++ rest))))))).drop 33).take 1
      = [bf] := by
    rw [d33]; exact List.take_left' rfl
  have d34 : ([b0] ++ (init ++ ([bf] ++ (c0 ++ (c1 ++ (c2 ++ (lr ++ rest))))))).drop 34
      = c0 ++ (c1 ++ (c2 ++ (lr ++ rest))) := by
    rw [show (34 : Nat) = 33 + 1 from rfl, ← List.drop_drop, d33]
    exact List.drop_left' rfl
  have hsplit : c0 ++ (c1 ++ (c2 ++ (lr ++ rest)))
      = (c0 ++ (c1 ++ c2)) ++ (lr ++ rest) := by simp [List.append_assoc]
  have creg : (([b0] ++ (init ++ ([bf] ++ (c0 ++ (c1 ++ (c2 ++ (lr ++ rest))))))).drop 34).take 96
      = c0 ++ (c1 ++ c2) := by
    rw [d34, hsplit]
    exact List.take_left' (by simp [h0, h1, h2])
  have cs0 : (c0 ++ (c1 ++ c2)).take 32 = c0 := List.take_left' h0
  have cs1 : ((c0 ++ (c1 ++ c2)).drop 32).take 32 = c1 := by
    rw [List.drop_left' h0]; exact List.take_left' h1
  have cs2 : ((c0 ++ (c1 ++ c2)).drop 64).take 32 = c2 := by
    rw [show c0 ++ (c1 ++ c2) = (c0 ++ c1) ++ c2 from (List.append_assoc c0 c1 c2).symm,
      List.drop_left' (by simp [h0, h1])]
    rw [← h2]; exact List.take_length c2
  have d130 : ([b0] ++ (init ++ ([bf] ++ (c0 ++ (c1 ++ (c2 ++ (lr ++ rest))))))).drop 130
      = lr ++ rest := by
    rw [show (130 : Nat) = 34 + 96 from rfl, ← List.drop_drop, d34, hsplit]
    exact List.drop_left' (by simp [h0, h1, h2])
  have lr1 : (([b0] ++ (init ++ ([bf] ++ (c0 ++ (c1 ++ (c2 ++ (lr ++ rest))))))).drop 130).take 8
      = lr := by
    rw [d130]; exact List.take_left' hlr
  simp only [GravityContract.unpack_from_slice, t1, i1, bf1, creg, cs0, cs1,
    cs2, lr1, from_le_bytes, List.foldr_cons, List.foldr_nil, Nat.mul_zero,
    Nat.add_zero]

theorem pack_layout (c : GravityContract) (p0 p1 p2 : Pubkey) (dst : List Nat)
    (hc : c.consuls = [p0, p1, p2])
    (hinit : c.initializer_pubkey.length = 32)
    (h0 : p0.length = 32) (h1 : p1.length = 32) (h2 : p2.length = 32)
    (hdst : GravityContract.LEN ≤ dst.length) :
    c.pack_into_slice dst =
      some ([if c.is_initialized then 1 else 0] ++ c.initializer_pubkey
        ++ [c.bft] ++ (p0 ++ p1 ++ p2) ++ to_le_bytes 8 c.last_round
        ++ dst.drop GravityContract.LEN) := by
  have hdst2 : 138 ≤ dst.length := hdst
  have hfold : c.consuls.foldl (fun a x => a ++ x) [] = p0 ++ p1 ++ p2 := by
    rw [hc]; rfl
  have hiflist : (if c.is_initialized then [1] else [0])
      = [if c.is_initialized then (1 : Nat) else 0] := by
    cases c.is_initialized <;> rfl
  simp only [GravityContract.pack_into_slice, GravityContract.LEN]
  rw [if_neg (by omega), if_neg (by simp [hinit]), hfold,
    if_neg (by simp [h0, h1, h2]), hiflist]

end Helpers

/-- C1: for every contract state holding exactly 3 consuls (well-formed per
the Rust field types: 32-byte keys, `bft : u8`, `last_round : u64`), encoding
succeeds and decoding the produced 138-byte buffer returns a state
structurally equal to the original. -/
theorem decode_encode_roundtrip (c : GravityContract)
    (h3 : c.consuls.length = 3) (hwf : c.WellFormed) :
    ∃ buf, c.encode = some buf ∧ decode buf = Except.ok c := by
  obtain ⟨ci, cinit, cbft, ccons, clr⟩ := c
  obtain ⟨p0, p1, p2, hc⟩ := List.length_eq_three.mp h3
  obtain ⟨hinit, hinitb, hbft, hcons, hround⟩ := hwf
  simp only at hc hinit hinitb hbft hcons hround
  subst hc
  have h0 : p0.length = 32 := (hcons p0 (by simp)).1
  have h1 : p1.length = 32 := (hcons p1 (by simp)).1
  have h2 : p2.length = 32 := (hcons p2 (by simp)).1
  have hpack := pack_layout ⟨ci, cinit, cbft, [p0, p1, p2], clr⟩ p0 p1 p2
    (List.replicate GravityContract.LEN 0) rfl hinit h0 h1 h2 (by simp)
  refine ⟨_, hpack, ?_⟩
  have hassoc : [if ci then (1 : Nat) else 0] ++ cinit ++ [cbft]
        ++ (p0 ++ p1 ++ p2) ++ to_le_bytes 8 clr
        ++ (List.replicate GravityContract.LEN (0 : Nat)).drop
            GravityContract.LEN
      = [if ci then (1 : Nat) else 0] ++ (cinit ++ ([cbft] ++ (p0 ++ (p1
        ++ (p2 ++ (to_le_bytes 8 clr
          ++ (List.replicate GravityContract.LEN (0 : Nat)).drop
              GravityContract.LEN)))))) := by
    simp [List.append_assoc]
  have hlen : ([if ci then (1 : Nat) else 0] ++ (cinit ++ ([cbft] ++ (p0
        ++ (p1 ++ (p2 ++ (to_le_bytes 8 clr
          ++ (List.replicate GravityContract.LEN (0 : Nat)).drop
              GravityContract.LEN))))))).length = GravityContract.LEN := by
    simp [hinit, h0, h1, h2, length_to_le_bytes, GravityContract.LEN]
  simp only [hassoc, decode, hlen, if_pos,
    unpack_layout (if ci then (1 : Nat) else 0) cbft cinit p0 p1 p2
      (to_le_bytes 8 clr) _ hinit h0 h1 h2 (length_to_le_bytes 8 clr)]
  have h64 : (256 : Nat) ^ 8 = 2 ^ 64 := by norm_num
  have hround2 : clr < 18446744073709551616 := by
    have he : (2 : Nat) ^ 64 = 18446744073709551616 := by norm_num
    omega
  cases ci <;>
    simp [Except.map, from_le_bytes_to_le_bytes, h64, Nat.mod_eq_of_lt,
      hround2]

/-- Witness for C1: the round-trip instantiated at the golden state. -/
theorem decode_encode_roundtrip_witness :
    ∃ buf, goldenState.encode = some buf ∧
      decode buf = Except.ok goldenState :=
  decode_encode_roundtrip goldenState (by decide) (by decide)

/-- C2: decoding any buffer whose length is not 138 fails with
`SizeMismatch`, for lengths below and above 138 alike. -/
theorem decode_size_mismatch (buf : List Nat) (h : buf.length ≠ 138) :
    decode buf = Except.error DecodeError.SizeMismatch := by
  simp [decode, GravityContract.LEN, h]

/-- Witness for C2: a too-short and a too-long buffer. -/
theorem decode_size_mismatch_witness :
    decode [] = Except.error DecodeError.SizeMismatch ∧
    decode (List.replicate 139 0) = Except.error DecodeError.SizeMismatch :=
  ⟨decode_size_mismatch [] (by decide),
   decode_size_mismatch (List.replicate 139 0) (by decide)⟩

/-- C3: on a 138-byte buffer whose byte 0 is neither 0 nor 1, decode fails
with `InvalidInitFlag`; and whenever byte 0 is 0 or 1, decode never returns
that error. -/
theorem decode_flag_validation (buf : List Nat) :
    (buf.length = 138 → buf.getD 0 0 ≠ 0 → buf.getD 0 0 ≠ 1 →
      decode buf = Except.error DecodeError.InvalidInitFlag) ∧
    ((buf.getD 0 0 = 0 ∨ buf.getD 0 0 = 1) →
      decode buf ≠ Except.error DecodeError.InvalidInitFlag) := by
  constructor
  · intro hlen hne0 hne1
    cases buf with
    | nil => simp at hlen
    | cons b t =>
      simp only [List.getD_cons_zero] at hne0 hne1
      obtain _ | _ | m := b
      · exact absurd rfl hne0
      · exact absurd rfl hne1
      · simp [decode, GravityContract.LEN, hlen,
          GravityContract.unpack_from_slice, Except.map]
  · intro h01 hcontra
    by_cases hlen : buf.length = GravityContract.LEN
    · cases buf with
      | nil => simp [GravityContract.LEN] at hlen
      | cons b t =>
        simp only [List.getD_cons_zero] at h01
        rcases h01 with rfl | rfl <;>
          simp [decode, hlen, GravityContract.unpack_from_slice,
            Except.map] at hcontra
    · simp [decode, hlen] at hcontra

/-- Witness for C3: byte 0 = 2 is rejected; byte 0 = 0 is not rejected as a
flag error. -/
theorem decode_flag_validation_witness :
    decode (2 :: List.replicate 137 0)
        = Except.error DecodeError.InvalidInitFlag ∧
    decode (0 :: List.replicate 137 0)
        ≠ Except.error DecodeError.InvalidInitFlag :=
  ⟨(decode_flag_validation (2 :: List.replicate 137 0)).1 (by decide)
      (by decide) (by decide),
   (decode_flag_validation (0 :: List.replicate 137 0)).2 (Or.inl (by decide))⟩

/-- C5: the golden state (initialized, zero initializer key, `bft = 2`,
three distinct nonzero consul patterns, `last_round = 42`) encodes to the
specified byte layout, and decoding that buffer reproduces the state. -/
theorem golden_layout :
    goldenState.encode = some goldenBuf ∧
    consulA ≠ consulB ∧ consulA ≠ consulC ∧ consulB ≠ consulC ∧
    consulA ≠ List.replicate 32 0 ∧ consulB ≠ List.replicate 32 0 ∧
    consulC ≠ List.replicate 32 0 ∧
    goldenBuf.getD 0 0 = 1 ∧
    (goldenBuf.drop 1).take 32 = List.replicate 32 0 ∧
    goldenBuf.getD 33 0 = 2 ∧
    (goldenBuf.drop 34).take 96 = consulA ++ consulB ++ consulC ∧
    (goldenBuf.drop 130).take 8 = [42, 0, 0, 0, 0, 0, 0, 0] ∧
    decode goldenBuf = Except.ok goldenState := by
  refine ⟨?_, ?_, ?_, ?_, ?_, ?_, ?_, ?_, ?_, ?_, ?_, ?_, ?_⟩ <;> first
    | rfl
    | decide

/-- C4: on any 138-byte buffer whose byte 0 is 0 or 1, decode succeeds and
reconstructs every field from its slice: the flag from byte 0, the
initializer key from bytes 1..33, `bft` from byte 33, the 3 consuls in
order from bytes 34..130, and `last_round` from bytes 130..138 read as a
little-endian unsigned 64-bit integer; no other byte pattern is validated. -/
theorem decode_success_fields (buf : List Nat) (hlen : buf.length = 138)
    (h01 : buf.getD 0 0 = 0 ∨ buf.getD 0 0 = 1) :
    decode buf = Except.ok
      { is_initialized := buf.getD 0 0 == 1
        initializer_pubkey := (buf.drop 1).take 32
        bft := buf.getD 33 0
        consuls := [(buf.drop 34).take 32, (buf.drop 66).take 32,
                    (buf.drop 98).take 32]
        last_round := from_le_bytes ((buf.drop 130).take 8) } := by
  cases buf with
  | nil => simp at hlen
  | cons b t =>
    have ht : t.length = 137 := by simpa using hlen
    have hdt : List.drop 32 t = t.getD 32 0 :: List.drop 33 t := by
      rw [List.getD_eq_getElem t 0 (by omega)]
      exact List.drop_eq_getElem_cons (by omega)
    have e1 : List.take 32 (List.take 96 (List.drop 33 t))
        = List.take 32 (List.drop 33 t) := by
      rw [List.take_take]; norm_num
    have e2 : List.take 32 (List.drop 32 (List.take 96 (List.drop 33 t)))
        = List.take 32 (List.drop 65 t) := by
      rw [List.drop_take, List.take_take, List.drop_drop]; norm_num
    have e3 : List.take 32 (List.drop 64 (List.take 96 (List.drop 33 t)))
        = List.take 32 (List.drop 97 t) := by
      rw [List.drop_take, List.take_take, List.drop_drop]; norm_num
    simp only [List.getD_cons_zero] at h01
    rcases h01 with rfl | rfl <;>
      · simp [decode, GravityContract.LEN, hlen,
          GravityContract.unpack_from_slice, Except.map, e1, e2, e3, hdt,
          from_le_bytes]
        simp [List.getElem?_eq_getElem (show (32 : Nat) < t.length by omega)]

/-- Witness for C4 at the golden buffer. -/
theorem decode_success_fields_witness :
    decode goldenBuf = Except.ok
      { is_initialized := goldenBuf.getD 0 0 == 1
        initializer_pubkey := (goldenBuf.drop 1).take 32
        bft := goldenBuf.getD 33 0
        consuls := [(goldenBuf.drop 34).take 32, (goldenBuf.drop 66).take 32,
                    (goldenBuf.drop 98).take 32]
        last_round := from_le_bytes ((goldenBuf.drop 130).take 8) } :=
  decode_success_fields goldenBuf (by decide) (Or.inr (by decide))

/-- C6: `last_round` is encoded little-endian: byte `130 + i` of the
encoding equals byte `i` of the little-endian representation of
`last_round`, for every state with 3 consuls. -/
theorem encode_last_round_le (c : GravityContract)
    (h3 : c.consuls.length = 3) (hwf : c.WellFormed) (buf : List Nat)
    (he : c.encode = some buf) (i : Nat) (hi : i < 8) :
    buf.getD (130 + i) 0 = c.last_round / 256 ^ i % 256 := by
  obtain ⟨p0, p1, p2, hc⟩ := List.length_eq_three.mp h3
  obtain ⟨hinit, hinitb, hbft, hcons, hround⟩ := hwf
  have h0 : p0.length = 32 := (hcons p0 (by simp [hc])).1
  have h1 : p1.length = 32 := (hcons p1 (by simp [hc])).1
  have h2 : p2.length = 32 := (hcons p2 (by simp [hc])).1
  have hpack := pack_layout c p0 p1 p2 (List.replicate GravityContract.LEN 0)
    hc hinit h0 h1 h2 (by simp)
  have hbuf : buf = [if c.is_initialized then 1 else 0] ++ c.initializer_pubkey
      ++ [c.bft] ++ (p0 ++ p1 ++ p2) ++ to_le_bytes 8 c.last_round
      ++ (List.replicate GravityContract.LEN (0 : Nat)).drop
          GravityContract.LEN := by
    have := he.symm.trans hpack
    exact Option.some.inj this.symm |>.symm
  have hassoc : buf = ([if c.is_initialized then (1 : Nat) else 0]
        ++ c.initializer_pubkey ++ [c.bft] ++ (p0 ++ p1 ++ p2))
      ++ (to_le_bytes 8 c.last_round
        ++ (List.replicate GravityContract.LEN (0 : Nat)).drop
            GravityContract.LEN) := by
    rw [hbuf]; simp [List.append_assoc]
  have hpre : ([if c.is_initialized then (1 : Nat) else 0]
      ++ c.initializer_pubkey ++ [c.bft] ++ (p0 ++ p1 ++ p2)).length = 130 := by
    simp [hinit, h0, h1, h2]
  rw [hassoc, List.getD_append_right _ _ _ _ (by omega), hpre,
    Nat.add_sub_cancel_left,
    List.getD_append _ _ _ _ (by rw [length_to_le_bytes]; omega),
    getD_to_le_bytes 8 c.last_round i hi]

/-- Witness for C6: `last_round = 0x0102030405060708` shows up at offsets
130 and 137 as bytes `08` and `01`. -/
theorem encode_last_round_le_witness :
    ∃ buf, endianState.encode = some buf ∧
      buf.getD (130 + 0) 0 = endianState.last_round / 256 ^ 0 % 256 ∧
      buf.getD (130 + 7) 0 = endianState.last_round / 256 ^ 7 % 256 := by
  refine ⟨(endianState.encode).getD [], by rfl, ?_, ?_⟩
  · exact encode_last_round_le endianState (by decide) (by decide) _
      (by rfl) 0 (by decide)
  · exact encode_last_round_le endianState (by decide) (by decide) _
      (by rfl) 7 (by decide)

/-- C7: packing a state whose consul sequence does not have exactly 3
entries never completes normally (the 96-byte `copy_from_slice` panics), so
no layout-valid buffer is produced from such a state. -/
theorem pack_wrong_consul_count (c : GravityContract)
    (hp : ∀ p ∈ c.consuls, p.length = 32) (h3 : c.consuls.length ≠ 3)
    (dst : List Nat) :
    c.pack_into_slice dst = none := by
  have hlen := consuls_bytes_length c.consuls hp
  simp only [GravityContract.pack_into_slice]
  split
  · rfl
  · split
    · rfl
    · split
      · rfl
      · omega

/-- Witness for C7: a state with only 2 consuls cannot be packed. -/
theorem pack_wrong_consul_count_witness :
    GravityContract.pack_into_slice
      { is_initialized := false, initializer_pubkey := List.replicate 32 0,
        bft := 0, consuls := [List.replicate 32 0, List.replicate 32 0],
        last_round := 0 } (List.replicate 138 0) = none :=
  pack_wrong_consul_count _ (by decide) (by decide) _

/-- C8: encode writes exactly the first 138 bytes: packing a well-formed
3-consul state into any destination of length at least 138 succeeds,
preserves the destination length, and leaves every byte at index 138 or
beyond unchanged. -/
theorem pack_frame (c : GravityContract) (h3 : c.consuls.length = 3)
    (hwf : c.WellFormed) (dst : List Nat) (hd : 138 ≤ dst.length) :
    ∃ buf, c.pack_into_slice dst = some buf ∧ buf.length = dst.length ∧
      buf.drop 138 = dst.drop 138 ∧
      ∀ i, 138 ≤ i → buf.getD i 0 = dst.getD i 0 := by
  obtain ⟨p0, p1, p2, hc⟩ := List.length_eq_three.mp h3
  obtain ⟨hinit, hinitb, hbft, hcons, hround⟩ := hwf
  have h0 : p0.length = 32 := (hcons p0 (by simp [hc])).1
  have h1 : p1.length = 32 := (hcons p1 (by simp [hc])).1
  have h2 : p2.length = 32 := (hcons p2 (by simp [hc])).1
  have hpack := pack_layout c p0 p1 p2 dst hc hinit h0 h1 h2 hd
  refine ⟨_, hpack, ?_, ?_, ?_⟩
  · simp [hinit, h0, h1, h2, length_to_le_bytes, List.length_drop,
      GravityContract.LEN]
    omega
  · exact List.drop_left'
      (by simp [hinit, h0, h1, h2, length_to_le_bytes])
  · intro i hi
    rw [List.getD_append_right _ _ _ _
        (by simp [hinit, h0, h1, h2, length_to_le_bytes]; omega)]
    have hpre : ([if c.is_initialized then (1 : Nat) else 0]
        ++ c.initializer_pubkey ++ [c.bft] ++ (p0 ++ p1 ++ p2)
        ++ to_le_bytes 8 c.last_round).length = 138 := by
      simp [hinit, h0, h1, h2, length_to_le_bytes]
    rw [hpre, getD_drop]
    have hix : GravityContract.LEN + (i - 138) = i := by
      simp only [GravityContract.LEN]; omega
    rw [hix]

/-- Witness for C8 at the golden state with a 140-byte destination. -/
theorem pack_frame_witness :
    ∃ buf, goldenState.pack_into_slice (List.replicate 140 7) = some buf ∧
      buf.length = (List.replicate 140 (7 : Nat)).length ∧
      buf.drop 138 = (List.replicate 140 (7 : Nat)).drop 138 ∧
      ∀ i, 138 ≤ i →
        buf.getD i 0 = (List.replicate 140 (7 : Nat)).getD i 0 :=
  pack_frame goldenState (by decide) (by decide) (List.replicate 140 7)
    (by decide)

/-- C9: decode is deterministic and pure: equal buffer contents give equal
results, and the buffer after the call is the buffer before it. -/
theorem decode_pure (b1 b2 : List Nat) (h : b1 = b2) :
    (decodeSt b1).1 = (decodeSt b2).1 ∧ (decodeSt b1).2 = b1 ∧
    (decodeSt b1).1 = decode b1 := by
  subst h
  refine ⟨rfl, ?_, ?_⟩
  · unfold decodeSt
    split
    · split <;> rfl
    · rfl
  · unfold decodeSt decode
    split
    · split <;> rfl
    · rfl

/-- Witness for C9 at the golden buffer. -/
theorem decode_pure_witness :
    (decodeSt goldenBuf).1 = (decodeSt goldenBuf).1 ∧
    (decodeSt goldenBuf).2 = goldenBuf ∧
    (decodeSt goldenBuf).1 = decode goldenBuf :=
  decode_pure goldenBuf goldenBuf rfl

/-- C10: any state produced by a successful decode of a byte buffer has
exactly 3 consuls and is well-formed, so it satisfies the preconditions of
encode and of the round-trip contract; in particular it can be encoded. -/
theorem decode_consuls_invariant (buf : List Nat) (c : GravityContract)
    (hb : ∀ b ∈ buf, b < 256) (h : decode buf = Except.ok c) :
    c.consuls.length = 3 ∧ c.WellFormed ∧ ∃ out, c.encode = some out := by
  by_cases hlen : buf.length = GravityContract.LEN
  case neg => simp [decode, hlen] at h
  have hlen138 : buf.length = 138 := hlen
  simp only [decode, if_pos hlen] at h
  revert h
  unfold GravityContract.unpack_from_slice
  cases hm : (match buf.take 1 with
    | [0] => Except.ok false
    | [1] => Except.ok true
    | _ => Except.error ProgramError.InvalidAccountData) with
  | error e => intro h; simp [Except.map] at h
  | ok flag =>
    intro h
    simp only [Except.map] at h
    injection h with h
    subst h
    have hsub0 : ((buf.drop 1).take 32 : List Nat) ⊆ buf :=
      (List.take_subset _ _).trans (List.drop_subset _ _)
    have hsubc : ((buf.drop 34).take 96 : List Nat) ⊆ buf :=
      (List.take_subset _ _).trans (List.drop_subset _ _)
    have hsc0 : (((buf.drop 34).take 96).take 32 : List Nat) ⊆ buf :=
      (List.take_subset _ _).trans hsubc
    have hsc1 : ((((buf.drop 34).take 96).drop 32).take 32 : List Nat) ⊆ buf :=
      (List.take_subset _ _).trans ((List.drop_subset _ _).trans hsubc)
    have hsc2 : ((((buf.drop 34).take 96).drop 64).take 32 : List Nat) ⊆ buf :=
      (List.take_subset _ _).trans ((List.drop_subset _ _).trans hsubc)
    have hsbft : (((buf.drop 33).take 1) : List Nat) ⊆ buf :=
      (List.take_subset _ _).trans (List.drop_subset _ _)
    have hslr : (((buf.drop 130).take 8) : List Nat) ⊆ buf :=
      (List.take_subset _ _).trans (List.drop_subset _ _)
    have hl0 : ((buf.drop 1).take 32).length = 32 := by
      simp [List.length_take, List.length_drop, hlen138]
    have hlc : ((buf.drop 34).take 96).length = 96 := by
      simp [List.length_take, List.length_drop, hlen138]
    have hlc0 : (((buf.drop 34).take 96).take 32).length = 32 := by
      simp [List.length_take, hlc]
    have hlc1 : ((((buf.drop 34).take 96).drop 32).take 32).length = 32 := by
      simp [List.length_take, List.length_drop, hlc]
    have hlc2 : ((((buf.drop 34).take 96).drop 64).take 32).length = 32 := by
      simp [List.length_take, List.length_drop, hlc]
    have hlbft : (((buf.drop 33).take 1)).length = 1 := by
      simp [List.length_take, List.length_drop, hlen138]
    have hllr : (((buf.drop 130).take 8)).length = 8 := by
      simp [List.length_take, List.length_drop, hlen138]
    have hbft256 : from_le_bytes ((buf.drop 33).take 1) < 256 := by
      have := from_le_bytes_lt _ (fun x hx => hb x (hsbft hx))
      rwa [hlbft, pow_one] at this
    have hlr64 : from_le_bytes ((buf.drop 130).take 8) < 2 ^ 64 := by
      have := from_le_bytes_lt _ (fun x hx => hb x (hslr hx))
      rw [hllr] at this
      have h64 : (256 : Nat) ^ 8 = 2 ^ 64 := by norm_num
      omega
    refine ⟨rfl, ⟨hl0, fun x hx => hb x (hsub0 hx), hbft256, ?_, hlr64⟩, ?_⟩
    · intro p hp
      simp only [List.mem_cons, List.not_mem_nil, or_false] at hp
      rcases hp with rfl | rfl | rfl
      · exact ⟨hlc0, fun x hx => hb x (hsc0 hx)⟩
      · exact ⟨hlc1, fun x hx => hb x (hsc1 hx)⟩
      · exact ⟨hlc2, fun x hx => hb x (hsc2 hx)⟩
    · exact ⟨_, pack_layout _ _ _ _ (List.replicate GravityContract.LEN 0)
        rfl hl0 hlc0 hlc1 hlc2 (by simp)⟩

/-- Witness for C10 at the golden buffer and state. -/
theorem decode_consuls_invariant_witness :
    goldenState.consuls.length = 3 ∧ goldenState.WellFormed ∧
    ∃ out, goldenState.encode = some out :=
  decode_consuls_invariant goldenBuf goldenState (by decide) (by rfl)
